import Mathlib

/-
Shallow embedding of the tss transcript-synchronization engine (Rust
sources under src/): the connector normalization code (fireflies.rs,
pocket.rs), the storage layer semantics (db/mod.rs over the schema of
db/schema.rs with PRAGMA foreign_keys = ON), the sync-state helpers
(sync/state.rs) and the orchestrator (sync/mod.rs).

Modelling conventions.  Rust strings are lists of characters (Str); UTF-8
byte counts are tracked with Char.utf8Size, which is exactly the length
contribution of a char in a Rust &str.  Floating-point payload fields
(durations, segment times) are carried opaquely as rationals; no modelled
code path does arithmetic on them.  JSON scalars that the code inspects are
the small inductive Jv; JSON payloads appear pre-deserialized in the shape
of the serde structs of the source.  Network transports, the SQLite engine
and wall-clock timestamps are external collaborators: remote responses,
prompt answers and the value of now enter as explicit arguments, SQLite
table contents are explicit lists, and every storage-mutating call is
additionally recorded in an operation trace (StorageOp) so that frame
claims can be stated.  Chrono date parsing is an external library and is
passed in as a function argument where the code calls it; panics of
fallible slicing are modelled as Option.none.
-/

namespace Tss

/-! ### Rust string primitives, modelled on lists of characters -/

/-- Rust strings, as their character sequences. -/
abbrev Str := List Char

/-- UTF-8 byte length of a string (Rust str::len counts bytes). -/
def byteLen (s : Str) : Nat := (s.map Char.utf8Size).sum

/-- Rust str::trim_start (whitespace per Char.isWhitespace; the inputs the
claims touch are ASCII). -/
def trimStart (s : Str) : Str := s.dropWhile Char.isWhitespace

/-- Rust str::trim_end. -/
def trimEnd (s : Str) : Str := (s.reverse.dropWhile Char.isWhitespace).reverse

/-- Rust str::trim. -/
def strTrim (s : Str) : Str := trimEnd (trimStart s)

/-- Rust str::starts_with for a string pattern. -/
def strStartsWith : Str → Str → Bool
  | _, [] => true
  | [], _ :: _ => false
  | c :: cs, p :: ps => c = p && strStartsWith cs ps

/-- Rust str::ends_with for a string pattern. -/
def strEndsWith (s p : Str) : Bool := strStartsWith s.reverse p.reverse

/-- Rust str::trim_start_matches with a char pattern: removes every leading
occurrence of the char. -/
def trimStartMatches (c : Char) (s : Str) : Str := s.dropWhile (· = c)

/-- Split at newline characters, keeping an empty final piece (the shape
str::split would give). -/
def splitNl : Str → List Str
  | [] => [[]]
  | c :: rest =>
    let r := splitNl rest
    if c = '\n' then [] :: r
    else
      match r with
      | [] => [[c]]
      | l :: ls => (c :: l) :: ls

/-- Drop one trailing carriage return; the lines iterator treats CRLF as a
single line ending. -/
def stripCr (s : Str) : Str := if s.getLast? = some '\x0d' then s.dropLast else s

/-- Rust str::lines: pieces split at newline or CRLF, without a final empty
piece after a trailing line ending. -/
def rustLines (s : Str) : List Str :=
  let parts := splitNl s
  let core := parts.dropLast.map stripCr
  match parts.getLast? with
  | some [] => core
  | some l => core ++ [l]
  | none => core

/-- Lowercase the ASCII uppercase range, leave every other char. -/
def asciiLower (c : Char) : Char :=
  if 'A' ≤ c ∧ c ≤ 'Z' then Char.ofNat (c.toNat + 32) else c

/-- Rust str::eq_ignore_ascii_case. -/
def eqIgnoreAsciiCase (a b : Str) : Bool :=
  a.map asciiLower == b.map asciiLower

/-- Decimal digit accumulation for integer parsing. -/
def digitsVal : Str → Nat → Option Nat
  | [], acc => some acc
  | c :: cs, acc =>
    if c.isDigit then digitsVal cs (acc * 10 + (c.toNat - '0'.toNat)) else none

/-- Rust str::parse to i64: an optional sign then decimal digits; empty or
non-digit input fails (the i64 range bound is not modelled). -/
def rustParseInt : Str → Option Int
  | '+' :: rest => if rest = [] then none else (digitsVal rest 0).map Int.ofNat
  | '-' :: rest => if rest = [] then none else (digitsVal rest 0).map fun n => -(n : Int)
  | [] => none
  | rest => (digitsVal rest 0).map Int.ofNat

/-- Decimal rendering of an integer (what to_string gives on a JSON
integer). -/
def intToStr (n : Int) : Str :=
  if n < 0 then '-' :: Nat.toDigits 10 (-n).toNat else Nat.toDigits 10 n.toNat

/-- Deduplication keeping the first occurrence of each element, used where
the code collects into a hash set whose iteration order is unspecified. -/
def dedupFirst {α} [DecidableEq α] (l : List α) : List α := go [] l where
  go : List α → List α → List α
    | _, [] => []
    | seen, x :: xs => if x ∈ seen then go seen xs else x :: go (x :: seen) xs

/-! ### JSON scalars the connectors inspect -/

/-- JSON scalar values distinguished by the modelled code paths of
serde_json::Value access chains. -/
inductive Jv where
  | str (s : Str)
  | int (n : Int)
  | null
deriving DecidableEq

/-- Fireflies date extraction
v.as_i64().or_else(parse of v.as_str()) (fireflies.rs lines 99-102 and
188-192). -/
def jvAsI64OrStrParse : Option Jv → Option Int
  | some (.int n) => some n
  | some (.str s) => rustParseInt s
  | _ => none

/-- Id extraction v.as_str().map(to_string).or_else(as_i64().map(to_string))
(pocket.rs lines 108-111 and 372-375). -/
def jvAsStrOrI64String : Jv → Option Str
  | .str s => some s
  | .int n => some (intToStr n)
  | .null => none

/-- The match on a deserialized id value in
PocketRecording::into_new_transcript (pocket.rs lines 206-212): a JSON
string is kept as is, any other value is rendered with to_string. -/
def jvToString : Jv → Str
  | .str s => s
  | .int n => intToStr n
  | .null => "null".data

/-! ### Canonical data model (db/models.rs, sync/mod.rs) -/

/-- db::models::NewSegment; floats carried as rationals. -/
structure NewSegment where
  speaker : Str
  text : Str
  start_time : Rat
  end_time : Rat
  segment_index : Int
deriving DecidableEq

/-- db::models::NewActionItem; the metadata JSON value is carried as its
serialized text. -/
structure NewActionItem where
  text : Str
  metadata : Option Str
deriving DecidableEq

/-- db::models::NewTranscript. -/
structure NewTranscript where
  id : Str
  title : Str
  date : Str
  duration_seconds : Rat
  source : Str
  summary : Str
  raw_text : Str
  metadata : Option Str
  speakers : List Str
  segments : List NewSegment
  tags : List Str
  keywords : List Str
  action_items : List NewActionItem
deriving DecidableEq

/-- sync::RemoteTranscript, the lightweight listing entry. -/
structure RemoteTranscript where
  id : Str
  title : Str
  date : Str
deriving DecidableEq

/-! ### Fireflies action-item extraction (fireflies.rs lines 247-270) -/

/-- One iteration of the action-items loop in
FirefliesTranscript::into_new_transcript: trim the line, skip it when blank
or shorter than 5 bytes, skip bold-marker header lines, strip leading
dash, bullet and asterisk runs in that order, keep a nonempty remainder as
one action item without metadata. -/
def ffActionItemStep (acc : List NewActionItem) (line : Str) : List NewActionItem :=
  let trimmed := strTrim line
  if trimmed = [] ∨ byteLen trimmed < 5 then acc
  else if strStartsWith trimmed "**".data ∧ strEndsWith trimmed "**".data then acc
  else
    let clean := strTrim (trimStartMatches '*' (trimStartMatches '•' (trimStartMatches '-' trimmed)))
    if clean = [] then acc else acc ++ [{ text := clean, metadata := none }]

/-- Action-item extraction from the free-text summary block
(fireflies.rs lines 247-270). -/
def firefliesActionItems (aiText : Str) : List NewActionItem :=
  (rustLines aiText).foldl ffActionItemStep []

/-- Modelled from the wording of the specification, for comparison: every
line surviving the blank, short and bold-header discards becomes exactly
one action item whose text is the line after bullet stripping and
trimming. -/
def firefliesActionItemsSpec (aiText : Str) : List NewActionItem :=
  ((rustLines aiText).filter fun line =>
      let trimmed := strTrim line
      decide (¬(trimmed = [] ∨ byteLen trimmed < 5) ∧
        ¬(strStartsWith trimmed "**".data ∧ strEndsWith trimmed "**".data))).map
    fun line =>
      { text := strTrim (trimStartMatches '*' (trimStartMatches '•'
          (trimStartMatches '-' (strTrim line)))),
        metadata := none }

/-! ### Pocket recording normalization (pocket.rs lines 174-331) -/

/-- Deserialized pocket transcript segment (serde struct PocketSegment). -/
structure PocketSegment where
  speaker : Option Str
  text : Option Str
  start : Option Rat
  «end» : Option Rat
deriving DecidableEq

/-- Deserialized pocket transcript body (serde struct PocketTranscript). -/
structure PocketTranscript where
  text : Option Str
  segments : Option (List PocketSegment)
deriving DecidableEq

/-- Deserialized pocket tag (serde struct PocketTag). -/
structure PocketTag where
  name : Option Str
deriving DecidableEq

/-- One element of the v2_action_items actions array, as inspected by the
code: the label and context fields after as_str. -/
structure PocketAction where
  label : Option Str
  context : Option Str
deriving DecidableEq

/-- The v2_summary payload: historically an object wrapping markdown, or a
bare string, or something else (ignored). -/
inductive PocketV2Summary where
  | obj (markdown : Option Str)
  | strv (s : Str)
  | other
deriving DecidableEq

/-- The summarizations JSON bag restricted to the keys the code reads. -/
structure PocketSummarizations where
  v2_summary : Option PocketV2Summary
  v2_action_items_actions : Option (List PocketAction)
deriving DecidableEq

/-- Deserialized pocket recording (serde struct PocketRecording). -/
structure PocketRecording where
  id : Option Jv
  title : Option Str
  created_at : Option Str
  duration : Option Rat
  transcript : Option PocketTranscript
  summarizations : Option PocketSummarizations
  tags : Option (List PocketTag)
deriving DecidableEq

/-- Rust byte slicing s[..n] restricted to a prefix: some prefix when n
lands on a UTF-8 char boundary within the string, none where the Rust
expression panics. -/
def takeBytes : Nat → Str → Option Str
  | 0, _ => some []
  | Nat.succ _, [] => none
  | Nat.succ n, c :: cs =>
    if c.utf8Size ≤ n + 1 then (takeBytes (n + 1 - c.utf8Size) cs).map (c :: ·)
    else none

/-- Raw-text cap of PocketRecording::into_new_transcript (pocket.rs lines
256-261): when the text exceeds 100000 bytes it is byte-sliced at index
100000, which panics (none) off a char boundary. -/
def capRawText (s : Str) : Option Str :=
  if byteLen s > 100000 then takeBytes 100000 s else some s

/-- Segment rows built by the loop in into_new_transcript (pocket.rs lines
223-246). -/
def pocketSegRows (segs : List PocketSegment) : List NewSegment :=
  segs.enum.map fun p =>
    { speaker := p.2.speaker.getD "Unknown".data
      text := p.2.text.getD []
      start_time := p.2.start.getD 0
      end_time := p.2.«end».getD 0
      segment_index := (p.1 : Int) }

/-- Raw per-segment lines speaker: text feeding the joined fallback raw
text. -/
def pocketRawLines (segs : List PocketSegment) : List Str :=
  segs.map fun s => (s.speaker.getD "Unknown".data) ++ ": ".data ++ s.text.getD []

/-- Speaker names collected by the loop; the hash-set iteration order of
the source is unspecified and modelled as first-occurrence order. -/
def pocketSpeakers (segs : List PocketSegment) : List Str :=
  dedupFirst ((segs.map fun s => s.speaker.getD "Unknown".data).filter fun sp => decide (sp ≠ []))

/-- Action items from the v2_action_items actions array (pocket.rs lines
280-304): prefer label, else context, drop empty texts. -/
def pocketActionItems (actions : List PocketAction) : List NewActionItem :=
  actions.filterMap fun a =>
    let label := a.label.getD []
    let context := a.context.getD []
    let text := if label ≠ [] then label else context
    if text = [] then none else some { text := text, metadata := none }

/-- Summary normalization (pocket.rs lines 267-277): a markdown-wrapped
object or a bare string; anything else leaves the summary empty. -/
def pocketSummary (sums : Option PocketSummarizations) : Str :=
  match sums.bind (·.v2_summary) with
  | some (.obj (some md)) => md
  | some (.obj none) => []
  | some (.strv s) => s
  | some .other => []
  | none => []

/-- PocketRecording::into_new_transcript (pocket.rs lines 204-331).  The
freshly generated uuid of the missing-id fallback enters as the freshUuid
argument; none models the panic of the raw-text byte slicing. -/
def pocketIntoNewTranscript (rec : PocketRecording) (freshUuid : Str) :
    Option NewTranscript :=
  let id := (rec.id.map jvToString).getD freshUuid
  let title := rec.title.getD "Untitled".data
  let date := rec.created_at.getD []
  let duration_seconds := rec.duration.getD 0
  let segs := (rec.transcript.bind (·.segments)).getD []
  let rawText := (rec.transcript.bind (·.text)).getD (List.intercalate ['\n'] (pocketRawLines segs))
  match capRawText rawText with
  | none => none
  | some raw_text =>
    some
      { id := id
        title := title
        date := date
        duration_seconds := duration_seconds
        source := "pocket".data
        summary := pocketSummary rec.summarizations
        raw_text := raw_text
        metadata := none
        speakers := pocketSpeakers segs
        segments := pocketSegRows segs
        tags := (rec.tags.getD []).filterMap (·.name)
        keywords := []
        action_items :=
          pocketActionItems ((rec.summarizations.bind (·.v2_action_items_actions)).getD []) }

/-! ### Sync state key-value store (sync/state.rs, table sync_state) -/

/-- Contents of the sync_state table: an association list keyed by the
primary-key column. -/
abbrev SyncState := List (Str × Str)

/-- state::get_sync_state. -/
def getSyncState (st : SyncState) (key : Str) : Option Str :=
  (st.find? fun p => p.1 == key).map (·.2)

/-- state::set_sync_state: insert, or on a key conflict update the value
in place. -/
def setSyncState (st : SyncState) (key value : Str) : SyncState :=
  if st.any fun p => p.1 == key then
    st.map fun p => if p.1 == key then (p.1, value) else p
  else st ++ [(key, value)]

/-- Decidable equality of fallible results with decidable components. -/
instance {ε α : Type} [DecidableEq ε] [DecidableEq α] : DecidableEq (Except ε α) :=
  fun x y =>
    match x, y with
    | .ok a, .ok b =>
      if h : a = b then .isTrue (by rw [h]) else .isFalse (by intro hh; cases hh; exact h rfl)
    | .error a, .error b =>
      if h : a = b then .isTrue (by rw [h]) else .isFalse (by intro hh; cases hh; exact h rfl)
    | .ok _, .error _ => .isFalse (by intro hh; cases hh)
    | .error _, .ok _ => .isFalse (by intro hh; cases hh)

/-! ### Pocket tag resolution (pocket.rs lines 333-391) -/

/-- One element of the remote tags listing, restricted to the fields the
code reads. -/
structure TagRow where
  name : Option Str
  id : Option Jv
deriving DecidableEq

/-- Outcome of resolve_tag_id: the result, the sync_state contents after
the call, and how many tags-list network requests the call issued. -/
structure TagResolution where
  result : Except Str Str
  state : SyncState
  netCalls : Nat
deriving DecidableEq

/-- resolve_tag_id (pocket.rs lines 333-391): consult the cache under
pocket.tag_id. followed by the tag name; on a miss fetch the full tag list
(one network call), take the first case-insensitive name match, fail when
nothing matches or the match has no id, else cache and return the id.  The
remote tag list stands for the body of the tags response. -/
def resolveTagId (remoteTags : List TagRow) (st : SyncState) (tagName : Str) :
    TagResolution :=
  let cacheKey := "pocket.tag_id.".data ++ tagName
  match getSyncState st cacheKey with
  | some cached => { result := .ok cached, state := st, netCalls := 0 }
  | none =>
    match remoteTags.find? fun t => eqIgnoreAsciiCase (t.name.getD []) tagName with
    | none => { result := .error ("tag not found".data), state := st, netCalls := 1 }
    | some t =>
      match t.id.bind jvAsStrOrI64String with
      | none => { result := .error ("tag found but has no id field".data), state := st, netCalls := 1 }
      | some tid =>
        { result := .ok tid, state := setSyncState st cacheKey tid, netCalls := 1 }

/-! ### Storage layer (db/mod.rs over the schema of db/schema.rs) -/

/-- One row of the transcripts table (the created_at and updated_at
defaults are opaque server time and are not modelled). -/
structure TranscriptRow where
  id : Str
  title : Str
  date : Str
  duration_seconds : Rat
  source : Str
  summary : Str
  raw_text : Str
  metadata : Option Str
deriving DecidableEq

/-- One row of the segments table (without the autoincrement rowid). -/
structure SegmentRow where
  transcript_id : Str
  speaker : Str
  text : Str
  start_time : Rat
  end_time : Rat
  segment_index : Int
deriving DecidableEq

/-- One row of the action_items table (without the autoincrement rowid). -/
structure ActionItemRow where
  transcript_id : Str
  text : Str
  metadata : Option Str
deriving DecidableEq

/-- Contents of the transcript-bearing tables; speakers, tags and keywords
rows are transcript-id/value pairs. -/
structure Store where
  transcripts : List TranscriptRow
  speakers : List (Str × Str)
  segments : List SegmentRow
  tags : List (Str × Str)
  keywords : List (Str × Str)
  action_items : List ActionItemRow
deriving DecidableEq

/-- Store with no rows. -/
def emptyStore : Store :=
  { transcripts := [], speakers := [], segments := [], tags := [], keywords := [],
    action_items := [] }

/-- Effect of deleting a transcripts row when PRAGMA foreign_keys is ON:
every child row referencing it goes too (ON DELETE CASCADE in
db/schema.rs). -/
def cascadeDeleteChildren (s : Store) (i : Str) : Store :=
  { s with
    speakers := s.speakers.filter fun p => decide (p.1 ≠ i)
    segments := s.segments.filter fun r => decide (r.transcript_id ≠ i)
    tags := s.tags.filter fun p => decide (p.1 ≠ i)
    keywords := s.keywords.filter fun p => decide (p.1 ≠ i)
    action_items := s.action_items.filter fun r => decide (r.transcript_id ≠ i) }

/-- Main-table row a NewTranscript maps to. -/
def rowOf (t : NewTranscript) : TranscriptRow :=
  { id := t.id, title := t.title, date := t.date,
    duration_seconds := t.duration_seconds, source := t.source,
    summary := t.summary, raw_text := t.raw_text, metadata := t.metadata }

/-- INSERT OR REPLACE INTO transcripts: a conflicting row is deleted first
(cascading to its children under foreign_keys = ON), then the new row is
inserted. -/
def insertOrReplaceTranscriptRow (s : Store) (row : TranscriptRow) : Store :=
  let s :=
    if s.transcripts.any fun r => r.id == row.id then
      cascadeDeleteChildren
        { s with transcripts := s.transcripts.filter fun r => decide (r.id ≠ row.id) } row.id
    else s
  { s with transcripts := s.transcripts ++ [row] }

/-- INSERT OR IGNORE on a table whose primary key or unique constraint is
the whole (transcript_id, value) pair. -/
def insertOrIgnorePair (l : List (Str × Str)) (p : Str × Str) : List (Str × Str) :=
  if p ∈ l then l else l ++ [p]

/-- Database::insert_transcript (db/mod.rs lines 54-133): replace the main
row, then insert speakers, segments, tags, keywords and action items of
the new transcript (speakers, tags and keywords with INSERT OR IGNORE). -/
def insertTranscript (s : Store) (t : NewTranscript) : Store :=
  let row : TranscriptRow :=
    { id := t.id, title := t.title, date := t.date,
      duration_seconds := t.duration_seconds, source := t.source,
      summary := t.summary, raw_text := t.raw_text, metadata := t.metadata }
  let s := insertOrReplaceTranscriptRow s row
  let s : Store := { s with speakers := t.speakers.foldl (fun l n => insertOrIgnorePair l (t.id, n)) s.speakers }
  let s : Store := { s with segments := s.segments ++ t.segments.map fun g =>
      { transcript_id := t.id, speaker := g.speaker, text := g.text,
        start_time := g.start_time, end_time := g.end_time,
        segment_index := g.segment_index } }
  let s : Store := { s with tags := t.tags.foldl (fun l n => insertOrIgnorePair l (t.id, n)) s.tags }
  let s : Store := { s with keywords := t.keywords.foldl (fun l n => insertOrIgnorePair l (t.id, n)) s.keywords }
  { s with action_items := s.action_items ++ t.action_items.map fun a =>
      { transcript_id := t.id, text := a.text, metadata := a.metadata } }

/-- Database::delete_transcript: whether a row went, and the store after
the cascading delete. -/
def deleteTranscript (s : Store) (i : Str) : Bool × Store :=
  if s.transcripts.any fun r => r.id == i then
    (true, cascadeDeleteChildren
      { s with transcripts := s.transcripts.filter fun r => decide (r.id ≠ i) } i)
  else (false, s)

/-- Database::transcript_exists. -/
def transcriptExists (s : Store) (i : Str) : Bool :=
  s.transcripts.any fun r => r.id == i

/-- state::get_local_ids_for_source (the hash-set iteration order of the
source is unspecified; the row order stands in for it). -/
def localIdsForSource (s : Store) (src : Str) : List Str :=
  (s.transcripts.filter fun r => r.source == src).map (·.id)

/-- Main-table rows visible for an id. -/
def transcriptRowsFor (s : Store) (i : Str) : List TranscriptRow :=
  s.transcripts.filter fun r => r.id == i

/-- Speaker names visible for an id. -/
def speakersFor (s : Store) (i : Str) : List Str :=
  (s.speakers.filter fun p => p.1 == i).map (·.2)

/-- Segment rows visible for an id. -/
def segmentsFor (s : Store) (i : Str) : List SegmentRow :=
  s.segments.filter fun r => r.transcript_id == i

/-- Tags visible for an id. -/
def tagsFor (s : Store) (i : Str) : List Str :=
  (s.tags.filter fun p => p.1 == i).map (·.2)

/-- Keywords visible for an id. -/
def keywordsFor (s : Store) (i : Str) : List Str :=
  (s.keywords.filter fun p => p.1 == i).map (·.2)

/-- Action-item rows visible for an id. -/
def actionItemsFor (s : Store) (i : Str) : List ActionItemRow :=
  s.action_items.filter fun r => r.transcript_id == i

/-- Everything the storage contract exposes for one transcript id. -/
def viewFor (s : Store) (i : Str) :
    List TranscriptRow × List Str × List SegmentRow × List Str × List Str ×
      List ActionItemRow :=
  (transcriptRowsFor s i, speakersFor s i, segmentsFor s i, tagsFor s i,
    keywordsFor s i, actionItemsFor s i)

/-! ### Remote listings (fireflies.rs lines 56-129, pocket.rs lines 75-154) -/

/-- Lexicographic string comparison (Rust Ord on str). -/
def strLe : Str → Str → Bool
  | [], _ => true
  | _ :: _, [] => false
  | a :: xs, b :: ys => if a < b then true else if b < a then false else strLe xs ys

/-- The final sort_by on b.date.cmp(a.date): newest-first by date string. -/
def sortByDateDesc (l : List RemoteTranscript) : List RemoteTranscript :=
  l.mergeSort fun a b => strLe b.date a.date

/-- One item of a fireflies listing page, restricted to the fields read by
the code: id and title via as_str, date as an epoch-ms number or numeric
string. -/
structure FFRawEntry where
  id : Option Str
  title : Option Str
  date : Option Jv
deriving DecidableEq

/-- A collected fireflies listing entry before ISO formatting; the epoch-ms
value is kept so that the date filter can be stated about it. -/
structure FFListed where
  id : Str
  title : Str
  dateMs : Int
deriving DecidableEq

/-- Per-page body of the fireflies listing loop (fireflies.rs lines
86-118): extract id, title and epoch-ms date (defaulting to 0), then skip
entries at or before the cutoff when one is given. -/
def ffCollectPage (sinceMs : Option Int) (page : List FFRawEntry) : List FFListed :=
  page.filterMap fun t =>
    let dateMs := (jvAsI64OrStrParse t.date).getD 0
    match sinceMs with
    | some m =>
      if dateMs ≤ m then none
      else some { id := t.id.getD [], title := t.title.getD "Untitled".data, dateMs := dateMs }
    | none => some { id := t.id.getD [], title := t.title.getD "Untitled".data, dateMs := dateMs }

/-- The fireflies pagination loop (fireflies.rs lines 69-124): consume
successive pages of the remote response sequence, stopping at an empty or
short page (PAGE_SIZE is 50). -/
def ffCollect (sinceMs : Option Int) : List (List FFRawEntry) → List FFListed
  | [] => []
  | p :: rest =>
    if p.isEmpty then []
    else
      ffCollectPage sinceMs p ++ (if p.length < 50 then [] else ffCollect sinceMs rest)

/-- FirefliesConnector::list_remote (fireflies.rs lines 56-129).  The
chrono since-parse enters as parseTs (to epoch ms) and the
epoch-ms-to-ISO formatter of the emitted dates as fmt; both are external
library calls in the source. -/
def ffListRemote (fmt : Int → Str) (parseTs : Str → Option Int) (since : Option Str)
    (pages : List (List FFRawEntry)) : Except Str (List RemoteTranscript) :=
  let build : Option Int → List RemoteTranscript := fun sinceMs =>
    sortByDateDesc ((ffCollect sinceMs pages).map fun e =>
      { id := e.id, title := e.title, date := fmt e.dateMs })
  match since with
  | some s =>
    match parseTs s with
    | none => .error "Failed to parse since timestamp".data
    | some m => .ok (build (some m))
  | none => .ok (build none)

/-- One item of a pocket listing page, restricted to the fields read by
the code: a string-or-integer id, the title, and the created_at-or-date
field via as_str. -/
structure PocketRawItem where
  id : Option Jv
  title : Option Str
  date : Option Str
deriving DecidableEq

/-- Per-page body of the pocket listing loop (pocket.rs lines 107-137):
extract id, title and date string, then, when a cutoff is given, skip
entries whose date parses to an instant at or before it — entries whose
date fails to parse are pushed unfiltered. -/
def pocketCollectPage (parseTs : Str → Option Int) (sinceDt : Option Int)
    (recs : List PocketRawItem) : List RemoteTranscript :=
  recs.filterMap fun r =>
    let id := (r.id.bind jvAsStrOrI64String).getD []
    let title := r.title.getD "Untitled".data
    let date := r.date.getD []
    match sinceDt with
    | some m =>
      match parseTs date with
      | some d => if d ≤ m then none else some { id := id, title := title, date := date }
      | none => some { id := id, title := title, date := date }
    | none => some { id := id, title := title, date := date }

/-- The pocket pagination loop (pocket.rs lines 87-149): page-numbered
responses paired with their reported last_page; stop on an empty data
array or when the page counter reaches last_page. -/
def pocketLoop (parseTs : Str → Option Int) (sinceDt : Option Int) :
    List (List PocketRawItem × Int) → Int → List RemoteTranscript
  | [], _ => []
  | (recs, lastPage) :: rest, page =>
    if recs.isEmpty then []
    else
      pocketCollectPage parseTs sinceDt recs ++
        (if page ≥ lastPage then [] else pocketLoop parseTs sinceDt rest (page + 1))

/-- PocketConnector::list_remote (pocket.rs lines 75-154); the chrono date
parser enters as parseTs. -/
def pocketListRemote (parseTs : Str → Option Int) (since : Option Str)
    (responses : List (List PocketRawItem × Int)) : Except Str (List RemoteTranscript) :=
  match since with
  | some s =>
    match parseTs s with
    | none => .error "Failed to parse since timestamp".data
    | some m => .ok (sortByDateDesc (pocketLoop parseTs (some m) responses 1))
  | none => .ok (sortByDateDesc (pocketLoop parseTs none responses 1))

/-! ### Orchestrator (sync/mod.rs) -/

/-- sync::SyncMode. -/
inductive SyncMode where
  | initial
  | incremental
  | audit
deriving DecidableEq

/-- SyncMode::as_str. -/
def SyncMode.asStr : SyncMode → Str
  | .initial => "initial".data
  | .incremental => "incremental".data
  | .audit => "audit".data

/-- sync::SyncOptions. -/
structure SyncOptions where
  yes : Bool
  dry_run : Bool
deriving DecidableEq

/-- sync::SyncReport (the wall-clock duration_secs field is environmental
and not modelled). -/
structure SyncReport where
  source : Str
  mode : SyncMode
  remote_total : Nat
  already_local : Nat
  synced : Nat
  skipped : Nat
  failed : Nat
deriving DecidableEq

/-- sync::AuditReport. -/
structure AuditReport where
  source : Str
  remote_total : Nat
  local_total : Nat
  missing_locally : List RemoteTranscript
  orphaned_locally : List Str
deriving DecidableEq

/-- Storage-mutating calls the engine can make against the database,
recorded in order of execution. -/
inductive StorageOp where
  | upsert (id : Str)
  | delete (id : Str)
  | setState (key value : Str)
  | startRun (source mode : Str)
  | completeRun (found synced skipped errors : Nat) (status : Str)
deriving DecidableEq

/-- One row of the sync_runs ledger (timestamps are opaque server time and
not modelled). -/
structure RunRow where
  source : Str
  mode : Str
  found : Nat
  synced : Nat
  skipped : Nat
  errors : Nat
  status : Str
deriving DecidableEq

/-- The database handle: transcript tables, the sync_state table and the
sync_runs ledger. -/
structure Db where
  store : Store
  syncState : SyncState
  runs : List RunRow
deriving DecidableEq

/-- A freshly created database. -/
def emptyDb : Db := { store := emptyStore, syncState := [], runs := [] }

/-- state::start_sync_run: append a running row, return its id. -/
def startRunDb (db : Db) (source mode : Str) : Nat × Db :=
  (db.runs.length,
    { db with
      runs := db.runs ++
        [{ source := source, mode := mode, found := 0, synced := 0, skipped := 0,
           errors := 0, status := "running".data }] })

/-- state::complete_sync_run: overwrite the counts and status of the run
row with the given id. -/
def completeRunDb (db : Db) (runId found synced skipped errors : Nat) (status : Str) : Db :=
  { db with
    runs := db.runs.enum.map fun p =>
      if p.1 = runId then
        { p.2 with
          found := found, synced := synced, skipped := skipped,
          errors := errors, status := status }
      else p.2 }

/-- state::set_sync_state on the handle. -/
def setStateDb (db : Db) (key value : Str) : Db :=
  { db with syncState := setSyncState db.syncState key value }

/-- A connector as the orchestrator sees it (trait TranscriptConnector):
its name and the outcomes of its network operations. -/
structure Connector where
  name : Str
  listRemote : Option Str → Except Str (List RemoteTranscript)
  fetchOne : Str → Except Str NewTranscript

/-- The declining answers of the initial-sync confirmation gate
(sync/mod.rs line 180): a nonempty trimmed answer other than a
case-insensitive y. -/
def declines (answer : Str) : Bool :=
  let t := strTrim answer
  !t.isEmpty && !eqIgnoreAsciiCase t "y".data

/-- Accumulator of the fetch-and-store loop. -/
structure FetchLoopState where
  synced : Nat
  failed : Nat
  db : Db
  ops : List StorageOp

/-- One iteration of the fetch-and-store loop (sync/mod.rs lines 201-242
and 385-402): a fetch failure counts an error and continues; a fetched
record is upserted (the SQLite insert itself is modelled as succeeding;
its I/O failures are environmental). -/
def fetchStoreStep (c : Connector) (st : FetchLoopState) (rt : RemoteTranscript) :
    FetchLoopState :=
  match c.fetchOne rt.id with
  | .ok t =>
    { st with
      synced := st.synced + 1,
      db := { st.db with store := insertTranscript st.db.store t },
      ops := st.ops ++ [.upsert t.id] }
  | .error _ => { st with failed := st.failed + 1 }

/-- The sequential fetch-and-store loop over the pending items. -/
def fetchStoreLoop (c : Connector) (items : List RemoteTranscript) (db : Db) :
    FetchLoopState :=
  items.foldl (fetchStoreStep c) { synced := 0, failed := 0, db := db, ops := [] }

/-- Missing-locally set of run_audit (sync/mod.rs lines 299-303): remote
entries whose id is not locally known. -/
def auditMissing (remote : List RemoteTranscript) (localIds : List Str) :
    List RemoteTranscript :=
  remote.filter fun r => !(localIds.contains r.id)

/-- Orphaned-locally set of run_audit (sync/mod.rs lines 306-310): local
ids absent from the remote listing. -/
def auditOrphaned (remote : List RemoteTranscript) (localIds : List Str) : List Str :=
  localIds.filter fun i => !((remote.map (·.id)).contains i)

/-- sync::run_sync (sync/mod.rs lines 77-280).  The stdin line read at the
confirmation prompt and the wall-clock now enter as arguments; the result
carries the report, the database after the run and the trace of
storage-mutating calls in execution order. -/
def runSync (c : Connector) (db : Db) (mode : SyncMode) (opts : SyncOptions)
    (stdinAnswer : Str) (now : Str) : Except Str (SyncReport × Db × List StorageOp) :=
  let source := c.name
  let cursorKey := source ++ ".last_sync_at".data
  let cursor :=
    match mode with
    | .incremental => getSyncState db.syncState cursorKey
    | _ => none
  match c.listRemote cursor with
  | .error e => .error e
  | .ok remote =>
    let remote_total := remote.length
    let newTs := remote.filter fun rt => !transcriptExists db.store rt.id
    let already_local := (remote.filter fun rt => transcriptExists db.store rt.id).length
    let newCount := newTs.length
    if newCount = 0 then
      -- lines 113-133: record the run and advance the cursor before the
      -- dry-run check is ever reached
      let p := startRunDb db source mode.asStr
      let db₁ := completeRunDb p.2 p.1 remote_total 0 already_local 0 "completed".data
      let advance := mode = SyncMode.initial ∨ mode = SyncMode.incremental
      let db₂ := if advance then setStateDb db₁ cursorKey now else db₁
      .ok ({ source := source, mode := mode, remote_total := remote_total,
             already_local := already_local, synced := 0, skipped := 0, failed := 0 },
           db₂,
           [.startRun source mode.asStr,
            .completeRun remote_total 0 already_local 0 "completed".data] ++
             (if advance then [.setState cursorKey now] else []))
    else if opts.dry_run = true then
      -- lines 150-171
      .ok ({ source := source, mode := mode, remote_total := remote_total,
             already_local := already_local, synced := 0, skipped := newCount,
             failed := 0 },
           db, [])
    else if mode = SyncMode.initial ∧ opts.yes = false ∧ declines stdinAnswer = true then
      -- lines 174-193: a declined confirmation returns without touching
      -- the database
      .ok ({ source := source, mode := mode, remote_total := remote_total,
             already_local := already_local, synced := 0, skipped := newCount,
             failed := 0 },
           db, [])
    else
      -- lines 196-279
      let p := startRunDb db source mode.asStr
      let loopRes := fetchStoreLoop c newTs p.2
      let status :=
        if loopRes.failed > 0 ∧ loopRes.synced = 0 then "failed".data else "completed".data
      let db₁ :=
        completeRunDb loopRes.db p.1 remote_total loopRes.synced already_local
          loopRes.failed status
      let db₂ := setStateDb db₁ cursorKey now
      .ok ({ source := source, mode := mode, remote_total := remote_total,
             already_local := already_local, synced := loopRes.synced, skipped := 0,
             failed := loopRes.failed },
           db₂,
           [.startRun source mode.asStr] ++ loopRes.ops ++
             [.completeRun remote_total loopRes.synced already_local loopRes.failed status,
              .setState cursorKey now])

/-- sync::run_audit (sync/mod.rs lines 283-480).  The stdin line read at
the disposition prompt enters as an argument (its to_lowercase is modelled
by ASCII lowering; the dispositions are ASCII). -/
def runAudit (c : Connector) (db : Db) (opts : SyncOptions) (stdinAnswer : Str) :
    Except Str (AuditReport × Db × List StorageOp) :=
  let source := c.name
  match c.listRemote none with
  | .error e => .error e
  | .ok remote =>
    let remote_total := remote.length
    let localIds := localIdsForSource db.store source
    let local_total := localIds.length
    let missing := auditMissing remote localIds
    let orphaned := auditOrphaned remote localIds
    let report : AuditReport :=
      { source := source, remote_total := remote_total, local_total := local_total,
        missing_locally := missing, orphaned_locally := orphaned }
    if missing = [] ∧ orphaned = [] then
      -- lines 315-326: a clean audit records a run before the dry-run
      -- check is ever reached
      let p := startRunDb db source "audit".data
      let db₁ := completeRunDb p.2 p.1 remote_total 0 local_total 0 "completed".data
      .ok (report, db₁,
        [.startRun source "audit".data,
         .completeRun remote_total 0 local_total 0 "completed".data])
    else if opts.dry_run = true then
      -- lines 355-364
      .ok (report, db, [])
    else
      let answer := (strTrim stdinAnswer).map asciiLower
      let p := startRunDb db source "audit".data
      if answer = "s".data ∧ missing ≠ [] then
        -- lines 381-417: sync the missing entries; the run closes
        -- completed whatever the counts
        let loopRes := fetchStoreLoop c missing p.2
        let db₁ :=
          completeRunDb loopRes.db p.1 remote_total loopRes.synced local_total
            loopRes.failed "completed".data
        .ok (report, db₁,
          [.startRun source "audit".data] ++ loopRes.ops ++
            [.completeRun remote_total loopRes.synced local_total loopRes.failed
              "completed".data])
      else if answer = "d".data ∧ orphaned ≠ [] then
        -- lines 418-437: delete the orphans
        let del :=
          orphaned.foldl
            (fun acc i =>
              let r := deleteTranscript acc.1.store i
              (({ acc.1 with store := r.2 } : Db), acc.2 ++ [StorageOp.delete i]))
            ((p.2, ([] : List StorageOp)) : Db × List StorageOp)
        let db₁ := completeRunDb del.1 p.1 remote_total 0 local_total 0 "completed".data
        .ok (report, db₁,
          [.startRun source "audit".data] ++ del.2 ++
            [.completeRun remote_total 0 local_total 0 "completed".data])
      else
        -- lines 438-470: the json-export arm and the fall-through arm both
        -- record the same no-op run
        let db₁ := completeRunDb p.2 p.1 remote_total 0 local_total 0 "completed".data
        .ok (report, db₁,
          [.startRun source "audit".data,
           .completeRun remote_total 0 local_total 0 "completed".data])

/-! ### Concrete fixtures for the claim instances -/

/-- A wall-clock timestamp fed to the runs below. -/
def now0 : Str := "2025-01-01T00:00:00Z".data

/-- One remote listing entry. -/
def entryX : RemoteTranscript :=
  { id := "X".data, title := "X title".data, date := "2024-05-01T00:00:00Z".data }

/-- A connector whose listing is empty. -/
def connEmpty : Connector :=
  { name := "pocket".data, listRemote := fun _ => .ok [],
    fetchOne := fun _ => .error "unreachable".data }

/-- A connector listing one entry whose full fetch fails. -/
def connXFail : Connector :=
  { name := "pocket".data, listRemote := fun _ => .ok [entryX],
    fetchOne := fun _ => .error "network down".data }

/-- Options of a dry run without the skip-confirmation flag. -/
def optsDry : SyncOptions := { yes := false, dry_run := true }

/-- Options of a mutating run without the skip-confirmation flag. -/
def optsWet : SyncOptions := { yes := false, dry_run := false }

/-- Report of the dry-run empty-diff sync of connEmpty. -/
def c1ceReport : SyncReport :=
  { source := "pocket".data, mode := .incremental, remote_total := 0,
    already_local := 0, synced := 0, skipped := 0, failed := 0 }

/-- Database left behind by that dry run. -/
def c1ceDb : Db :=
  { store := emptyStore,
    syncState := [("pocket.last_sync_at".data, now0)],
    runs := [{ source := "pocket".data, mode := "incremental".data, found := 0,
               synced := 0, skipped := 0, errors := 0, status := "completed".data }] }

/-- Storage-mutating trace of that dry run. -/
def c1ceOps : List StorageOp :=
  [.startRun "pocket".data "incremental".data,
   .completeRun 0 0 0 0 "completed".data,
   .setState "pocket.last_sync_at".data now0]

/-- Report of the sync-missing audit of connXFail whose only fetch fails. -/
def c3ceReport : AuditReport :=
  { source := "pocket".data, remote_total := 1, local_total := 0,
    missing_locally := [entryX], orphaned_locally := [] }

/-- Database left behind by that audit. -/
def c3ceDb : Db :=
  { store := emptyStore, syncState := [],
    runs := [{ source := "pocket".data, mode := "audit".data, found := 1,
               synced := 0, skipped := 0, errors := 1, status := "completed".data }] }

/-- Storage-mutating trace of that audit. -/
def c3ceOps : List StorageOp :=
  [.startRun "pocket".data "audit".data,
   .completeRun 1 0 0 1 "completed".data]

/-- Report of the declined initial sync of connXFail. -/
def c4ceReport : SyncReport :=
  { source := "pocket".data, mode := .initial, remote_total := 1,
    already_local := 0, synced := 0, skipped := 1, failed := 0 }

/-- A pocket recording payload without an id field. -/
def recNoId : PocketRecording :=
  { id := none, title := some "T".data,
    created_at := some "2024-01-01T00:00:00Z".data, duration := some 5,
    transcript := some
      { text := some "hello".data,
        segments := some [{ speaker := some "A".data, text := some "hello".data,
                            start := some 0, «end» := some 1 }] },
    summarizations := none, tags := none }

/-- A raw transcript text whose 100000th byte falls inside a multi-byte
character: 99999 one-byte chars then two three-byte chars. -/
def c5Text : Str := List.replicate 99999 'a' ++ ['€', '€']

/-- A pocket recording carrying that text. -/
def c5Rec : PocketRecording :=
  { id := some (.str "r1".data), title := some "Long".data,
    created_at := some "2024-01-01T00:00:00Z".data, duration := some 10,
    transcript := some
      { text := some c5Text,
        segments := some [{ speaker := some "A".data, text := some "hi".data,
                            start := some 0, «end» := some 1 }] },
    summarizations := none, tags := none }

/-- A remote tag list holding one tag named Work. -/
def tagsW : List TagRow :=
  [{ name := some "Work".data, id := some (.str "tag-1".data) }]

/-- A chrono stand-in defined on the cutoff timestamp only. -/
def parse0 : Str → Option Int :=
  fun s => if s = "2024-01-02T00:00:00Z".data then some 100 else none

/-- The cutoff timestamp of the listing instances. -/
def t0 : Str := "2024-01-02T00:00:00Z".data

/-- A one-page pocket response whose single recording has no date field. -/
def respNoDate : List (List PocketRawItem × Int) :=
  [([{ id := some (.str "p1".data), title := some "No date".data, date := none }], 1)]

/-- The entry that listing emits for it. -/
def entryNoDate : RemoteTranscript :=
  { id := "p1".data, title := "No date".data, date := [] }

/-- A chrono stand-in defined on the cutoff and one newer date. -/
def parse1 : Str → Option Int :=
  fun s =>
    if s = "2024-01-02T00:00:00Z".data then some 100
    else if s = "2024-01-03T00:00:00Z".data then some 150
    else none

/-- A one-page pocket response with one dated recording newer than the
cutoff. -/
def respNewer : List (List PocketRawItem × Int) :=
  [([{ id := some (.str "p2".data), title := some "Newer".data,
       date := some "2024-01-03T00:00:00Z".data }], 1)]

/-- The entry that listing emits for it. -/
def entryNewer : RemoteTranscript :=
  { id := "p2".data, title := "Newer".data, date := "2024-01-03T00:00:00Z".data }

/-- A one-page fireflies response with one entry dated 150 epoch ms. -/
def ffPageA : List (List FFRawEntry) :=
  [[{ id := some "A".data, title := some "A title".data, date := some (.int 150) }]]

/-- The collected fireflies entry for it. -/
def ffA : FFListed := { id := "A".data, title := "A title".data, dateMs := 150 }

/-- First upsert payload of the overwrite instance. -/
def t1W : NewTranscript :=
  { id := "a".data, title := "one".data, date := "2024-01-01".data,
    duration_seconds := 1, source := "pocket".data, summary := "s1".data,
    raw_text := "r1".data, metadata := none, speakers := ["alice".data],
    segments := [{ speaker := "alice".data, text := "hi".data, start_time := 0,
                   end_time := 1, segment_index := 0 }],
    tags := ["t1".data], keywords := ["k1".data],
    action_items := [{ text := "do one".data, metadata := none }] }

/-- Second upsert payload with the same id and different contents. -/
def t2W : NewTranscript :=
  { id := "a".data, title := "two".data, date := "2024-02-02".data,
    duration_seconds := 2, source := "pocket".data, summary := "s2".data,
    raw_text := "r2".data, metadata := none, speakers := ["bob".data, "carol".data],
    segments := [{ speaker := "bob".data, text := "yo".data, start_time := 0,
                   end_time := 2, segment_index := 0 },
                 { speaker := "carol".data, text := "hey".data, start_time := 2,
                   end_time := 3, segment_index := 1 }],
    tags := ["t2".data], keywords := ["k2".data],
    action_items := [{ text := "do two".data, metadata := none }] }

/-- An unrelated transcript already in the store. -/
def tOtherW : NewTranscript :=
  { id := "b".data, title := "other".data, date := "2023-01-01".data,
    duration_seconds := 3, source := "fireflies".data, summary := "so".data,
    raw_text := "ro".data, metadata := none, speakers := ["dan".data],
    segments := [{ speaker := "dan".data, text := "ok".data, start_time := 0,
                   end_time := 1, segment_index := 0 }],
    tags := ["to".data], keywords := ["ko".data],
    action_items := [{ text := "do other".data, metadata := none }] }

/-- A store already holding the unrelated transcript. -/
def storeW : Store := insertTranscript emptyStore tOtherW

/-! ## Theorems -/

/-! ### C9: fireflies action-item extraction -/

theorem ffActionItemStep_append (acc : List NewActionItem) (l : Str) :
    ffActionItemStep acc l = acc ++ ffActionItemStep [] l := by
  simp only [ffActionItemStep]
  split_ifs <;> simp

theorem foldl_ffActionItemStep (ls : List Str) :
    ∀ acc, ls.foldl ffActionItemStep acc = acc ++ ls.foldl ffActionItemStep [] := by
  induction ls with
  | nil => intro acc; simp
  | cons l ls ih =>
    intro acc
    simp only [List.foldl_cons]
    rw [ih (ffActionItemStep acc l), ih (ffActionItemStep [] l),
      ffActionItemStep_append acc l, List.append_assoc]

/-- C9 (amended): splitting the free-text action_items block into lines,
the code discards blank lines, lines shorter than five bytes and bold
markdown header lines; each remaining line, stripped of leading bullet
markers and whitespace, becomes exactly one metadata-free action item
unless the stripping leaves nothing, in which case the line is discarded
as well — so the extraction is the spec-worded map further filtered to
nonempty texts. -/
theorem c9_fireflies_action_items (aiText : Str) :
    firefliesActionItems aiText =
      (firefliesActionItemsSpec aiText).filter fun a => decide (a.text ≠ []) := by
  unfold firefliesActionItems firefliesActionItemsSpec
  generalize rustLines aiText = ls
  induction ls with
  | nil => rfl
  | cons l ls ih =>
    simp only [List.foldl_cons, List.filter_cons]
    rw [foldl_ffActionItemStep, ih]
    by_cases h1 : strTrim l = [] ∨ byteLen (strTrim l) < 5
    · have hstep : ffActionItemStep [] l = [] := by simp [ffActionItemStep, h1]
      simp [hstep, h1]
    · by_cases h2 : strStartsWith (strTrim l) "**".data ∧ strEndsWith (strTrim l) "**".data
      · have hstep : ffActionItemStep [] l = [] := by
          simp only [ffActionItemStep]
          rw [if_neg h1, if_pos h2]
        simp [hstep, h1, h2]
      · by_cases h3 :
            strTrim (trimStartMatches '*' (trimStartMatches '•'
              (trimStartMatches '-' (strTrim l)))) = []
        · have hstep : ffActionItemStep [] l = [] := by
            simp only [ffActionItemStep]
            rw [if_neg h1, if_neg h2, if_pos h3]
          simp [hstep, h1, h2, h3]
        · have hstep : ffActionItemStep [] l =
              [{ text := strTrim (trimStartMatches '*' (trimStartMatches '•'
                  (trimStartMatches '-' (strTrim l)))), metadata := none }] := by
            simp only [ffActionItemStep]
            rw [if_neg h1, if_neg h2, if_neg h3]
            simp
          simp [hstep, h1, h2, h3]

/-- C9 counterexample: the five-dash line survives the blank, short and
header discards, so the claim makes it one action item, but stripping its
leading dashes leaves nothing and the code emits no item at all. -/
theorem c9_counterexample :
    firefliesActionItems "-----".data = [] ∧
      firefliesActionItemsSpec "-----".data = [{ text := [], metadata := none }] ∧
      firefliesActionItems "-----".data ≠ firefliesActionItemsSpec "-----".data :=
  ⟨by decide, by decide, by decide⟩

/-! ### C5: pocket raw-text cap -/

theorem byteLen_append (a b : Str) : byteLen (a ++ b) = byteLen a + byteLen b := by
  simp [byteLen]

theorem byteLen_replicate (n : Nat) (c : Char) :
    byteLen (List.replicate n c) = n * c.utf8Size := by
  simp [byteLen, List.map_replicate, List.sum_replicate, smul_eq_mul]

theorem takeBytes_replicate_a (k : Nat) (rest : Str) :
    ∀ n, takeBytes (n + k) (List.replicate n 'a' ++ rest) =
      (takeBytes k rest).map (List.replicate n 'a' ++ ·) := by
  intro n
  induction n with
  | zero => simp
  | succ n ih =>
    have ha : ('a').utf8Size = 1 := by decide
    have h1 : n + 1 + k = Nat.succ (n + k) := by omega
    rw [List.replicate_succ, List.cons_append, h1]
    simp only [takeBytes]
    rw [if_pos (by rw [ha]; omega)]
    rw [ha]
    simp only [Nat.add_sub_cancel, ih, Option.map_map]
    rfl

theorem c5Text_byteLen : byteLen c5Text = 100005 := by
  have ha : ('a').utf8Size = 1 := by decide
  rw [c5Text, byteLen_append, byteLen_replicate, ha]
  have : byteLen (['€', '€'] : Str) = 6 := by decide
  rw [this]

theorem c5Text_takeBytes : takeBytes 100000 c5Text = none := by
  have h : (100000 : Nat) = 99999 + 1 := by norm_num
  rw [c5Text, h, takeBytes_replicate_a 1 ['€', '€'] 99999]
  have he : ('€').utf8Size = 3 := by decide
  have : takeBytes 1 (['€', '€'] : Str) = none := by
    simp only [takeBytes]
    rw [if_neg (by rw [he]; omega)]
  rw [this]
  rfl

theorem c5_capRawText : capRawText c5Text = none := by
  rw [capRawText, if_pos (by rw [c5Text_byteLen]; norm_num), c5Text_takeBytes]

/-- C5: evaluation of the pocket normalization at a recording whose
transcript text is 99999 one-byte characters followed by two three-byte
characters: the 100000-byte cap byte-slices off a char boundary, so the
code panics (modelled as none) instead of returning a capped record —
the normalization is not total, and the comment-promised character cap is
in fact a byte cap. -/
theorem pocketIntoNewTranscript_none (rec : PocketRecording) (u : Str)
    (h : capRawText ((rec.transcript.bind (·.text)).getD
        (List.intercalate ['\n']
          (pocketRawLines ((rec.transcript.bind (·.segments)).getD [])))) = none) :
    pocketIntoNewTranscript rec u = none := by
  simp only [pocketIntoNewTranscript]
  rw [h]

/-- C5: evaluation of the pocket normalization at a recording whose
transcript text is 99999 one-byte characters followed by two three-byte
characters: the 100000-byte cap byte-slices off a char boundary, so the
code panics (modelled as none) instead of returning a capped record —
the normalization is not total, and the comment-promised character cap is
in fact a byte cap. -/
theorem c5_pocket_raw_text_cap_panics :
    pocketIntoNewTranscript c5Rec "u".data = none :=
  pocketIntoNewTranscript_none c5Rec "u".data c5_capRawText

/-! ### C10: pocket fetch normalization is not deterministic without an id -/

/-- C10: when the recording payload lacks an id field the normalization
takes the freshly generated random uuid as the transcript id, so two
normalizations of the identical payload under different draws return
records with different ids — and the stored id is not provider-native. -/
theorem c10_pocket_missing_id_fresh_uuid :
    (∀ rec u, rec.id = none →
        (pocketIntoNewTranscript rec u).map NewTranscript.id =
          (pocketIntoNewTranscript rec u).map fun _ => u) ∧
      recNoId.id = none ∧
      pocketIntoNewTranscript recNoId "u1".data ≠
        pocketIntoNewTranscript recNoId "u2".data := by
  refine ⟨?_, rfl, by decide⟩
  intro rec u h
  simp only [pocketIntoNewTranscript]
  cases hcap : capRawText ((rec.transcript.bind (·.text)).getD
      (List.intercalate ['\n']
        (pocketRawLines ((rec.transcript.bind (·.segments)).getD [])))) with
  | none => simp
  | some rt => simp [h]

/-- C10 witness: the payload without an id normalizes under the draw u1 to
a record whose id is u1. -/
theorem c10_witness :
    recNoId.id = none ∧
      (pocketIntoNewTranscript recNoId "u1".data).map NewTranscript.id =
        (pocketIntoNewTranscript recNoId "u1".data).map fun _ => "u1".data :=
  ⟨rfl, c10_pocket_missing_id_fresh_uuid.1 recNoId "u1".data rfl⟩

/-! ### C8: pocket tag-cache behavior -/

theorem getSyncState_cons (p : Str × Str) (ps : SyncState) (k : Str) :
    getSyncState (p :: ps) k = if p.1 == k then some p.2 else getSyncState ps k := by
  unfold getSyncState
  by_cases h : (p.1 == k) = true
  · simp [List.find?_cons, h]
  · simp [List.find?_cons, h]

theorem getSyncState_setSyncState (k v : Str) (st : SyncState) :
    getSyncState (setSyncState st k v) k = some v := by
  unfold setSyncState
  split
  case isTrue h =>
    induction st with
    | nil => simp at h
    | cons p ps ih =>
      simp only [List.any_cons, Bool.or_eq_true] at h
      by_cases hp : p.1 = k
      · simp [List.map_cons, getSyncState_cons, hp]
      · have h' : ps.any (fun q => q.1 == k) = true := by
          rcases h with h | h
          · exact absurd (by simpa using h) hp
          · exact h
        simp only [List.map_cons, getSyncState_cons, hp, if_false, beq_iff_eq, if_neg hp]
        simpa using ih h'
  case isFalse h =>
    induction st with
    | nil => simp [getSyncState_cons]
    | cons p ps ih =>
      simp only [List.any_cons, Bool.or_eq_true, not_or] at h
      have hp : ¬p.1 = k := by simpa using h.1
      simp only [List.cons_append, getSyncState_cons, beq_iff_eq, if_neg hp]
      exact ih (by simpa using h.2)

theorem resolveTagId_hit (tags : List TagRow) (st : SyncState) (name v : Str)
    (h : getSyncState st ("pocket.tag_id.".data ++ name) = some v) :
    resolveTagId tags st name = { result := .ok v, state := st, netCalls := 0 } := by
  simp only [resolveTagId]
  rw [h]

theorem resolveTagId_netCalls_le_one (tags : List TagRow) (st : SyncState) (name : Str) :
    (resolveTagId tags st name).netCalls ≤ 1 := by
  simp only [resolveTagId]
  split
  · simp
  · split
    · simp
    · split
      · simp
      · simp

theorem resolveTagId_ok_cached (tags : List TagRow) (st : SyncState) (name v : Str)
    (h : (resolveTagId tags st name).result = .ok v) :
    getSyncState (resolveTagId tags st name).state ("pocket.tag_id.".data ++ name) =
      some v := by
  cases hget : getSyncState st ("pocket.tag_id.".data ++ name) with
  | some cached =>
    have h1 := resolveTagId_hit tags st name cached hget
    rw [h1] at h ⊢
    simp at h
    show getSyncState st ("pocket.tag_id.".data ++ name) = some v
    rw [hget, h]
  | none =>
    simp only [resolveTagId, hget] at h ⊢
    cases hfind : tags.find? fun t => eqIgnoreAsciiCase (t.name.getD []) name with
    | none => simp only [hfind] at h; simp at h
    | some t =>
      simp only [hfind] at h ⊢
      cases hid : t.id.bind jvAsStrOrI64String with
      | none => simp only [hid] at h; simp at h
      | some tid =>
        simp only [hid] at h ⊢
        simp at h ⊢
        rw [← h]
        exact getSyncState_setSyncState _ _ _

/-- C8 (amended): when the first resolution of a tag name succeeds, the
resolved id is cached under pocket.tag_id. followed by the name, a second
resolution against the resulting storage is a cache hit issuing no network
call — so the two resolutions together issue the tags-list call at most
once and agree on the id.  (A failed first resolution caches nothing and a
later retry repeats the network call.) -/
theorem c8_tag_cache (tags : List TagRow) (st : SyncState) (name v : Str)
    (h : (resolveTagId tags st name).result = .ok v) :
    (resolveTagId tags st name).netCalls +
        (resolveTagId tags (resolveTagId tags st name).state name).netCalls ≤ 1 ∧
      (resolveTagId tags (resolveTagId tags st name).state name).result = .ok v := by
  have hcache := resolveTagId_ok_cached tags st name v h
  have h2 := resolveTagId_hit tags (resolveTagId tags st name).state name v hcache
  refine ⟨?_, by rw [h2]⟩
  rw [h2]
  simpa using resolveTagId_netCalls_le_one tags st name

/-- C8 counterexample: resolving an absent tag name twice against the same
storage issues the tags-list network call both times — the claimed
at-most-once bound fails when the first resolution does not resolve. -/
theorem c8_counterexample :
    (resolveTagId [] [] "work".data).netCalls = 1 ∧
      (resolveTagId [] (resolveTagId [] [] "work".data).state "work".data).netCalls = 1 :=
  ⟨by decide, by decide⟩

/-- C8 witness: the Work tag resolves case-insensitively on a fresh cache
with one network call, and the repeat resolution is a free cache hit. -/
theorem c8_witness :
    (resolveTagId tagsW [] "work".data).result = .ok "tag-1".data ∧
      ((resolveTagId tagsW [] "work".data).netCalls +
          (resolveTagId tagsW (resolveTagId tagsW [] "work".data).state
            "work".data).netCalls ≤ 1 ∧
        (resolveTagId tagsW (resolveTagId tagsW [] "work".data).state
          "work".data).result = .ok "tag-1".data) :=
  ⟨by decide, c8_tag_cache tagsW [] "work".data "tag-1".data (by decide)⟩

/-! ### C6: upsert overwrites, never duplicates or accumulates -/

theorem foldl_ins_filter_two (i : Str) (names : List Str) :
    ∀ (base₁ base₂ : List (Str × Str)),
      (∀ p ∈ base₁, p.1 ≠ i) → (∀ p ∈ base₂, p.1 = i) →
      ((names.foldl (fun l n => insertOrIgnorePair l (i, n)) (base₁ ++ base₂)).filter
          fun p => p.1 == i) =
        names.foldl (fun l n => insertOrIgnorePair l (i, n)) base₂ := by
  induction names with
  | nil =>
    intro base₁ base₂ h1 h2
    simp only [List.foldl_nil, List.filter_append]
    rw [List.filter_eq_nil_iff.mpr (by intro p hp; simpa using h1 p hp),
      List.filter_eq_self.mpr (by intro p hp; simpa using h2 p hp)]
    simp
  | cons n ns ih =>
    intro base₁ base₂ h1 h2
    simp only [List.foldl_cons]
    by_cases hm : (i, n) ∈ base₂
    · have hm1 : (i, n) ∈ base₁ ++ base₂ := List.mem_append.mpr (Or.inr hm)
      rw [show insertOrIgnorePair (base₁ ++ base₂) (i, n) = base₁ ++ base₂ by
            unfold insertOrIgnorePair; rw [if_pos hm1],
          show insertOrIgnorePair base₂ (i, n) = base₂ by
            unfold insertOrIgnorePair; rw [if_pos hm]]
      exact ih base₁ base₂ h1 h2
    · have hm1 : (i, n) ∉ base₁ ++ base₂ := by
        intro hc
        rcases List.mem_append.mp hc with hc | hc
        · exact h1 _ hc rfl
        · exact hm hc
      rw [show insertOrIgnorePair (base₁ ++ base₂) (i, n) = base₁ ++ (base₂ ++ [(i, n)]) by
            unfold insertOrIgnorePair; rw [if_neg hm1, List.append_assoc],
          show insertOrIgnorePair base₂ (i, n) = base₂ ++ [(i, n)] by
            unfold insertOrIgnorePair; rw [if_neg hm]]
      refine ih base₁ (base₂ ++ [(i, n)]) h1 ?_
      intro p hp
      rcases List.mem_append.mp hp with hp | hp
      · exact h2 p hp
      · simp at hp; rw [hp]

theorem filter_foldl_ins (i : Str) (names : List Str) (base : List (Str × Str))
    (hb : ∀ p ∈ base, p.1 ≠ i) :
    ((names.foldl (fun l n => insertOrIgnorePair l (i, n)) base).filter
        fun p => p.1 == i) =
      names.foldl (fun l n => insertOrIgnorePair l (i, n)) [] := by
  have := foldl_ins_filter_two i names base [] hb (by intro p hp; simp at hp)
  simpa using this

theorem insertTranscript_transcripts (s : Store) (t : NewTranscript) :
    (insertTranscript s t).transcripts =
      (if s.transcripts.any (fun r => r.id == t.id) then
        s.transcripts.filter fun r => decide (r.id ≠ t.id)
      else s.transcripts) ++ [rowOf t] := by
  simp only [insertTranscript, insertOrReplaceTranscriptRow, cascadeDeleteChildren, rowOf]
  split <;> rfl

theorem insertTranscript_speakers (s : Store) (t : NewTranscript) :
    (insertTranscript s t).speakers =
      t.speakers.foldl (fun l n => insertOrIgnorePair l (t.id, n))
        (if s.transcripts.any (fun r => r.id == t.id) then
          s.speakers.filter fun p => decide (p.1 ≠ t.id)
        else s.speakers) := by
  simp only [insertTranscript, insertOrReplaceTranscriptRow, cascadeDeleteChildren]
  split <;> rfl

theorem insertTranscript_tags (s : Store) (t : NewTranscript) :
    (insertTranscript s t).tags =
      t.tags.foldl (fun l n => insertOrIgnorePair l (t.id, n))
        (if s.transcripts.any (fun r => r.id == t.id) then
          s.tags.filter fun p => decide (p.1 ≠ t.id)
        else s.tags) := by
  simp only [insertTranscript, insertOrReplaceTranscriptRow, cascadeDeleteChildren]
  split <;> rfl

theorem insertTranscript_keywords (s : Store) (t : NewTranscript) :
    (insertTranscript s t).keywords =
      t.keywords.foldl (fun l n => insertOrIgnorePair l (t.id, n))
        (if s.transcripts.any (fun r => r.id == t.id) then
          s.keywords.filter fun p => decide (p.1 ≠ t.id)
        else s.keywords) := by
  simp only [insertTranscript, insertOrReplaceTranscriptRow, cascadeDeleteChildren]
  split <;> rfl

theorem insertTranscript_segments (s : Store) (t : NewTranscript) :
    (insertTranscript s t).segments =
      (if s.transcripts.any (fun r => r.id == t.id) then
        s.segments.filter fun r => decide (r.transcript_id ≠ t.id)
      else s.segments) ++
        t.segments.map (fun g =>
          { transcript_id := t.id, speaker := g.speaker, text := g.text,
            start_time := g.start_time, end_time := g.end_time,
            segment_index := g.segment_index }) := by
  simp only [insertTranscript, insertOrReplaceTranscriptRow, cascadeDeleteChildren]
  split <;> rfl

theorem insertTranscript_action_items (s : Store) (t : NewTranscript) :
    (insertTranscript s t).action_items =
      (if s.transcripts.any (fun r => r.id == t.id) then
        s.action_items.filter fun r => decide (r.transcript_id ≠ t.id)
      else s.action_items) ++
        t.action_items.map (fun a =>
          { transcript_id := t.id, text := a.text, metadata := a.metadata }) := by
  simp only [insertTranscript, insertOrReplaceTranscriptRow, cascadeDeleteChildren]
  split <;> rfl

theorem transcriptRowsFor_insert (s : Store) (t : NewTranscript) :
    transcriptRowsFor (insertTranscript s t) t.id = [rowOf t] := by
  unfold transcriptRowsFor
  rw [insertTranscript_transcripts, List.filter_append]
  have hrow : List.filter (fun r => r.id == t.id) [rowOf t] = [rowOf t] := by
    simp [rowOf]
  rw [hrow]
  split
  case isTrue hex =>
    rw [List.filter_eq_nil_iff.mpr ?_]
    · rfl
    · intro r hr
      have := (List.mem_filter.mp hr).2
      simpa using this
  case isFalse hex =>
    rw [List.filter_eq_nil_iff.mpr ?_]
    · rfl
    · intro r hr hcon
      exact hex (List.any_eq_true.mpr ⟨r, hr, hcon⟩)

theorem speakersFor_insert_canon (s : Store) (t : NewTranscript)
    (hcase : s.transcripts.any (fun r => r.id == t.id) = true ∨
      ∀ p ∈ s.speakers, p.1 ≠ t.id) :
    speakersFor (insertTranscript s t) t.id =
      (t.speakers.foldl (fun l n => insertOrIgnorePair l (t.id, n)) []).map (·.2) := by
  unfold speakersFor
  rw [insertTranscript_speakers]
  rw [filter_foldl_ins t.id t.speakers _ ?_]
  intro p hp
  rcases hcase with hex | hall
  · rw [if_pos hex] at hp
    simpa using (List.mem_filter.mp hp).2
  · by_cases hex : s.transcripts.any (fun r => r.id == t.id) = true
    · rw [if_pos hex] at hp
      simpa using (List.mem_filter.mp hp).2
    · rw [if_neg hex] at hp
      exact hall p hp

theorem tagsFor_insert_canon (s : Store) (t : NewTranscript)
    (hcase : s.transcripts.any (fun r => r.id == t.id) = true ∨
      ∀ p ∈ s.tags, p.1 ≠ t.id) :
    tagsFor (insertTranscript s t) t.id =
      (t.tags.foldl (fun l n => insertOrIgnorePair l (t.id, n)) []).map (·.2) := by
  unfold tagsFor
  rw [insertTranscript_tags]
  rw [filter_foldl_ins t.id t.tags _ ?_]
  intro p hp
  rcases hcase with hex | hall
  · rw [if_pos hex] at hp
    simpa using (List.mem_filter.mp hp).2
  · by_cases hex : s.transcripts.any (fun r => r.id == t.id) = true
    · rw [if_pos hex] at hp
      simpa using (List.mem_filter.mp hp).2
    · rw [if_neg hex] at hp
      exact hall p hp

theorem keywordsFor_insert_canon (s : Store) (t : NewTranscript)
    (hcase : s.transcripts.any (fun r => r.id == t.id) = true ∨
      ∀ p ∈ s.keywords, p.1 ≠ t.id) :
    keywordsFor (insertTranscript s t) t.id =
      (t.keywords.foldl (fun l n => insertOrIgnorePair l (t.id, n)) []).map (·.2) := by
  unfold keywordsFor
  rw [insertTranscript_keywords]
  rw [filter_foldl_ins t.id t.keywords _ ?_]
  intro p hp
  rcases hcase with hex | hall
  · rw [if_pos hex] at hp
    simpa using (List.mem_filter.mp hp).2
  · by_cases hex : s.transcripts.any (fun r => r.id == t.id) = true
    · rw [if_pos hex] at hp
      simpa using (List.mem_filter.mp hp).2
    · rw [if_neg hex] at hp
      exact hall p hp

theorem segmentsFor_insert_canon (s : Store) (t : NewTranscript)
    (hcase : s.transcripts.any (fun r => r.id == t.id) = true ∨
      ∀ r ∈ s.segments, r.transcript_id ≠ t.id) :
    segmentsFor (insertTranscript s t) t.id =
      t.segments.map (fun g =>
        { transcript_id := t.id, speaker := g.speaker, text := g.text,
          start_time := g.start_time, end_time := g.end_time,
          segment_index := g.segment_index }) := by
  unfold segmentsFor
  rw [insertTranscript_segments, List.filter_append]
  rw [List.filter_eq_nil_iff.mpr ?_, List.filter_eq_self.mpr ?_]
  · rfl
  · intro r hr
    rcases List.mem_map.mp hr with ⟨g, _, hg⟩
    rw [← hg]
    simp
  · intro r hr hcon
    have hne : r.transcript_id ≠ t.id := by
      rcases hcase with hex | hall
      · rw [if_pos hex] at hr
        simpa using (List.mem_filter.mp hr).2
      · by_cases hex : s.transcripts.any (fun r => r.id == t.id) = true
        · rw [if_pos hex] at hr
          simpa using (List.mem_filter.mp hr).2
        · rw [if_neg hex] at hr
          exact hall r hr
    exact hne (by simpa using hcon)

theorem actionItemsFor_insert_canon (s : Store) (t : NewTranscript)
    (hcase : s.transcripts.any (fun r => r.id == t.id) = true ∨
      ∀ r ∈ s.action_items, r.transcript_id ≠ t.id) :
    actionItemsFor (insertTranscript s t) t.id =
      t.action_items.map (fun a =>
        { transcript_id := t.id, text := a.text, metadata := a.metadata }) := by
  unfold actionItemsFor
  rw [insertTranscript_action_items, List.filter_append]
  rw [List.filter_eq_nil_iff.mpr ?_, List.filter_eq_self.mpr ?_]
  · rfl
  · intro r hr
    rcases List.mem_map.mp hr with ⟨a, _, ha⟩
    rw [← ha]
    simp
  · intro r hr hcon
    have hne : r.transcript_id ≠ t.id := by
      rcases hcase with hex | hall
      · rw [if_pos hex] at hr
        simpa using (List.mem_filter.mp hr).2
      · by_cases hex : s.transcripts.any (fun r => r.id == t.id) = true
        · rw [if_pos hex] at hr
          simpa using (List.mem_filter.mp hr).2
        · rw [if_neg hex] at hr
          exact hall r hr
    exact hne (by simpa using hcon)

theorem any_insertTranscript (s : Store) (t₁ t₂ : NewTranscript) (h : t₁.id = t₂.id) :
    (insertTranscript s t₁).transcripts.any (fun r => r.id == t₂.id) = true := by
  rw [insertTranscript_transcripts]
  refine List.any_eq_true.mpr ⟨rowOf t₁, ?_, ?_⟩
  · exact List.mem_append.mpr (Or.inr (by simp))
  · simp [rowOf, h]

/-- C6: after upserting two transcripts with the same id, the store holds
exactly one main row for that id, and everything visible for the id —
main row, speakers, segments, tags, keywords, action items — is exactly
what upserting the second transcript alone into an empty store yields:
the second upsert overwrites the first without duplication or
accumulation. -/
theorem c6_reinsert_overwrites (s : Store) (t₁ t₂ : NewTranscript) (h : t₁.id = t₂.id) :
    viewFor (insertTranscript (insertTranscript s t₁) t₂) t₂.id =
      viewFor (insertTranscript emptyStore t₂) t₂.id ∧
      (transcriptRowsFor (insertTranscript (insertTranscript s t₁) t₂) t₂.id).length = 1 := by
  have hex := any_insertTranscript s t₁ t₂ h
  constructor
  · unfold viewFor
    rw [transcriptRowsFor_insert, transcriptRowsFor_insert]
    rw [speakersFor_insert_canon _ _ (Or.inl hex),
      speakersFor_insert_canon emptyStore _ (Or.inr (by intro p hp; simp [emptyStore] at hp))]
    rw [segmentsFor_insert_canon _ _ (Or.inl hex),
      segmentsFor_insert_canon emptyStore _ (Or.inr (by intro r hr; simp [emptyStore] at hr))]
    rw [tagsFor_insert_canon _ _ (Or.inl hex),
      tagsFor_insert_canon emptyStore _ (Or.inr (by intro p hp; simp [emptyStore] at hp))]
    rw [keywordsFor_insert_canon _ _ (Or.inl hex),
      keywordsFor_insert_canon emptyStore _ (Or.inr (by intro p hp; simp [emptyStore] at hp))]
    rw [actionItemsFor_insert_canon _ _ (Or.inl hex),
      actionItemsFor_insert_canon emptyStore _ (Or.inr (by intro r hr; simp [emptyStore] at hr))]
  · rw [transcriptRowsFor_insert]
    rfl

/-- C6 witness: overwriting the first concrete transcript by the second in
a store that already holds an unrelated one leaves exactly the view of the
second. -/
theorem c6_witness :
    t1W.id = t2W.id ∧
      viewFor (insertTranscript (insertTranscript storeW t1W) t2W) t2W.id =
        viewFor (insertTranscript emptyStore t2W) t2W.id ∧
      (transcriptRowsFor (insertTranscript (insertTranscript storeW t1W) t2W)
        t2W.id).length = 1 :=
  ⟨by decide, (c6_reinsert_overwrites storeW t1W t2W (by decide)).1,
    (c6_reinsert_overwrites storeW t1W t2W (by decide)).2⟩

/-! ### C7: audit discrepancy sets partition the id sets -/

/-- C7: as id sets, missing-locally joined with the common ids gives the
remote ids, orphaned-locally joined with the common ids gives the local
ids, and the two discrepancy sets are disjoint. -/
theorem c7_audit_partition (remote : List RemoteTranscript) (localIds : List Str) :
    ((auditMissing remote localIds).map (·.id)).toFinset ∪
        ((remote.map (·.id)).toFinset ∩ localIds.toFinset) =
      (remote.map (·.id)).toFinset ∧
      (auditOrphaned remote localIds).toFinset ∪
          ((remote.map (·.id)).toFinset ∩ localIds.toFinset) =
        localIds.toFinset ∧
      ((auditMissing remote localIds).map (·.id)).toFinset ∩
          (auditOrphaned remote localIds).toFinset = ∅ := by
  refine ⟨?_, ?_, ?_⟩ <;> ext x <;>
    simp only [auditMissing, auditOrphaned, Finset.mem_union, Finset.mem_inter,
      List.mem_toFinset, List.mem_map, List.mem_filter, Bool.not_eq_true',
      List.contains, List.elem_eq_mem, decide_eq_false_iff_not, decide_eq_true_eq,
      Finset.not_mem_empty, iff_false] <;>
    first
    | (constructor
       · rintro (⟨r, ⟨hr, _⟩, hx⟩ | ⟨⟨r, hr, hx⟩, _⟩) <;> exact ⟨r, hr, hx⟩
       · rintro ⟨r, hr, hx⟩
         by_cases hl : r.id ∈ localIds
         · exact Or.inr ⟨⟨r, hr, hx⟩, hx ▸ hl⟩
         · exact Or.inl ⟨r, ⟨hr, hl⟩, hx⟩)
    | (constructor
       · rintro (⟨hx, _⟩ | ⟨_, hx⟩) <;> exact hx
       · intro hx
         by_cases hr : ∃ r, r ∈ remote ∧ r.id = x
         · exact Or.inr ⟨hr, hx⟩
         · exact Or.inl ⟨hx, hr⟩)
    | (rintro ⟨⟨r, ⟨_, hnot⟩, hx⟩, hl, _⟩
       exact hnot (hx ▸ hl))

/-! ### C2: strictness of the since filter in the remote listings -/

theorem ffCollectPage_since (m : Int) (page : List FFRawEntry) :
    ∀ e ∈ ffCollectPage (some m) page, m < e.dateMs := by
  intro e he
  simp only [ffCollectPage, List.mem_filterMap] at he
  rcases he with ⟨t, _, ht⟩
  by_cases hle : (jvAsI64OrStrParse t.date).getD 0 ≤ m
  · simp [hle] at ht
  · simp only [if_neg hle, Option.some_inj] at ht
    rw [← ht]
    show m < (jvAsI64OrStrParse t.date).getD 0
    omega

theorem ffCollect_since (pages : List (List FFRawEntry)) (m : Int) :
    ∀ e ∈ ffCollect (some m) pages, m < e.dateMs := by
  induction pages with
  | nil => intro e he; simp [ffCollect] at he
  | cons p rest ih =>
    intro e he
    simp only [ffCollect] at he
    by_cases hp : p.isEmpty = true
    · rw [if_pos hp] at he; simp at he
    · rw [if_neg hp] at he
      rcases List.mem_append.mp he with he | he
      · exact ffCollectPage_since m p e he
      · by_cases hlen : p.length < 50
        · rw [if_pos hlen] at he; simp at he
        · rw [if_neg hlen] at he; exact ih e he

theorem pocketCollectPage_since (parseTs : Str → Option Int) (m : Int)
    (recs : List PocketRawItem) :
    ∀ e ∈ pocketCollectPage parseTs (some m) recs,
      ∀ d, parseTs e.date = some d → m < d := by
  intro e he d hd
  simp only [pocketCollectPage, List.mem_filterMap] at he
  rcases he with ⟨r, _, hr2⟩
  rcases hpd : parseTs (r.date.getD []) with _ | d2
  · rw [hpd] at hr2
    simp only [Option.some_inj] at hr2
    rw [← hr2] at hd
    simp only at hd
    rw [hpd] at hd
    exact absurd hd (by simp)
  · rw [hpd] at hr2
    by_cases hle : d2 ≤ m
    · simp [hle] at hr2
    · simp only [if_neg hle, Option.some_inj] at hr2
      rw [← hr2] at hd
      simp only at hd
      rw [hpd] at hd
      have hdd : d2 = d := Option.some_inj.mp hd
      omega

theorem pocketLoop_since (parseTs : Str → Option Int) (m : Int)
    (responses : List (List PocketRawItem × Int)) :
    ∀ (page : Int), ∀ e ∈ pocketLoop parseTs (some m) responses page,
      ∀ d, parseTs e.date = some d → m < d := by
  induction responses with
  | nil => intro page e he; simp [pocketLoop] at he
  | cons pr rest ih =>
    intro page e he d hd
    obtain ⟨recs, lastPage⟩ := pr
    simp only [pocketLoop] at he
    by_cases hr : recs.isEmpty = true
    · rw [if_pos hr] at he; simp at he
    · rw [if_neg hr] at he
      rcases List.mem_append.mp he with he | he
      · exact pocketCollectPage_since parseTs m recs e he d hd
      · by_cases hpg : page ≥ lastPage
        · rw [if_pos hpg] at he; simp at he
        · rw [if_neg hpg] at he; exact ih (page + 1) e he d hd

/-- C2 (amended): for both connectors every listed entry whose date is
comparable to the cutoff is strictly newer than it — Fireflies compares
epoch-millisecond values (a missing date defaults to 0 ms), Pocket
compares chrono-parsed instants — but a Pocket entry whose date string
fails to parse is returned unfiltered rather than excluded. -/
theorem c2_list_remote_since_strict :
    (∀ (pages : List (List FFRawEntry)) (m : Int) (e : FFListed),
        e ∈ ffCollect (some m) pages → m < e.dateMs) ∧
      ∀ (parseTs : Str → Option Int) (responses : List (List PocketRawItem × Int))
        (T : Str) (m : Int) (out : List RemoteTranscript) (e : RemoteTranscript)
        (d : Int),
        parseTs T = some m →
          pocketListRemote parseTs (some T) responses = .ok out →
          e ∈ out → parseTs e.date = some d → m < d := by
  constructor
  · intro pages m e he
    exact ffCollect_since pages m e he
  · intro parseTs responses T m out e d hT hok he hd
    simp only [pocketListRemote, hT] at hok
    have hout : out = sortByDateDesc (pocketLoop parseTs (some m) responses 1) :=
      (Except.ok.injEq _ _ ▸ hok).symm
    rw [hout] at he
    have hmem : e ∈ pocketLoop parseTs (some m) responses 1 :=
      List.mem_mergeSort.mp he
    exact pocketLoop_since parseTs m responses 1 e hmem d hd

/-- C2 counterexample: with the cutoff present, a Pocket recording whose
date field is absent (so its date string is empty and unparseable) is
still returned by list_remote — an entry whose date cannot be compared to
the cutoff appears in the result. -/
theorem c2_counterexample :
    pocketListRemote parse0 (some t0) respNoDate = .ok [entryNoDate] ∧
      parse0 entryNoDate.date = none := by
  constructor
  · simp only [pocketListRemote, parse0, t0, respNoDate, entryNoDate, pocketLoop,
      pocketCollectPage, sortByDateDesc]
    norm_num
    simp [List.mergeSort_singleton, List.filterMap, jvAsStrOrI64String]
  · decide

/-- C2 witness: a fireflies entry dated 150 epoch ms survives the 100 ms
cutoff and is indeed strictly newer, and a parseable Pocket entry dated
150 likewise exceeds the cutoff 100. -/
theorem c2_witness :
    (ffA ∈ ffCollect (some 100) ffPageA ∧ 100 < ffA.dateMs) ∧
      parse1 t0 = some 100 ∧
        pocketListRemote parse1 (some t0) respNewer = .ok [entryNewer] ∧
        parse1 entryNewer.date = some 150 ∧ (100 : Int) < 150 := by
  have hok : pocketListRemote parse1 (some t0) respNewer = .ok [entryNewer] := by
    simp only [pocketListRemote, parse1, t0, respNewer, entryNewer, pocketLoop,
      pocketCollectPage, sortByDateDesc]
    norm_num
    simp [List.mergeSort_singleton, List.filterMap, jvAsStrOrI64String]
  refine ⟨⟨by decide, c2_list_remote_since_strict.1 ffPageA 100 ffA (by decide)⟩,
    by decide, hok,
    by decide,
    c2_list_remote_since_strict.2 parse1 respNewer t0 100 [entryNewer] entryNewer 150
      (by decide) hok (by simp) (by decide)⟩

/-! ### C4: declined initial-sync confirmation -/

/-- C4 (amended): an initial sync without the skip-confirmation flag whose
nonempty pending set is declined at the prompt is a pure no-op: it returns
a report with synced 0 and skipped equal to the to-fetch count, leaves the
database untouched, and makes no storage-mutating call at all — in
particular no SyncRun is recorded. -/
theorem c4_declined_confirmation (c : Connector) (db : Db) (opts : SyncOptions)
    (stdin now : Str) (remote : List RemoteTranscript)
    (hyes : opts.yes = false) (hdry : opts.dry_run = false)
    (hdecl : declines stdin = true)
    (hlist : c.listRemote none = .ok remote)
    (hne : remote.filter (fun rt => !transcriptExists db.store rt.id) ≠ []) :
    runSync c db .initial opts stdin now =
      .ok ({ source := c.name, mode := .initial, remote_total := remote.length,
             already_local :=
               (remote.filter fun rt => transcriptExists db.store rt.id).length,
             synced := 0,
             skipped :=
               (remote.filter fun rt => !transcriptExists db.store rt.id).length,
             failed := 0 }, db, []) := by
  simp only [runSync, hlist]
  rw [if_neg fun hc => hne (List.length_eq_zero.mp hc),
    if_neg (by rw [hdry]; simp), if_pos ⟨trivial, hyes, hdecl⟩]

/-- C4 counterexample: declining the confirmation of a one-item initial
sync returns with skipped 1 but performs no storage call and leaves the
run ledger empty — no SyncRun is recorded, contrary to the claim. -/
theorem c4_counterexample :
    runSync connXFail emptyDb .initial optsWet "n".data now0 =
      .ok (c4ceReport, emptyDb, ([] : List StorageOp)) ∧
      emptyDb.runs = [] :=
  ⟨by decide, rfl⟩

/-- C4 witness: the declined one-item initial sync instantiates the no-op
conclusion. -/
theorem c4_witness :
    runSync connXFail emptyDb .initial optsWet "n".data now0 =
      .ok ({ source := connXFail.name, mode := .initial,
             remote_total := [entryX].length,
             already_local :=
               ([entryX].filter fun rt => transcriptExists emptyDb.store rt.id).length,
             synced := 0,
             skipped :=
               ([entryX].filter fun rt => !transcriptExists emptyDb.store rt.id).length,
             failed := 0 }, emptyDb, []) :=
  c4_declined_confirmation connXFail emptyDb optsWet "n".data now0 [entryX] rfl rfl
    (by decide) rfl (by decide)

/-! ### C1: dry-run storage purity -/

/-- C1 (amended): a dry run never upserts or deletes, and when the diff
found work (a nonempty to-fetch set, or any audit discrepancy) it makes no
storage-mutating call at all; but when the diff is empty the dry-run check
is never reached: a dry-run sync with an empty to-fetch set still records
a SyncRun and advances the cursor, and a dry-run audit without
discrepancies still records a SyncRun. -/
theorem c1_dry_run_purity :
    (∀ (c : Connector) (db : Db) (mode : SyncMode) (opts : SyncOptions)
        (stdin now : Str) (r : SyncReport) (db' : Db) (ops : List StorageOp),
        opts.dry_run = true →
        runSync c db mode opts stdin now = .ok (r, db', ops) →
        (∀ i, StorageOp.upsert i ∉ ops) ∧ (∀ i, StorageOp.delete i ∉ ops) ∧
          (r.skipped ≠ 0 → ops = []) ∧
          (r.skipped = 0 →
            ops = [.startRun c.name mode.asStr,
                   .completeRun r.remote_total 0 r.already_local 0 "completed".data] ++
              (if mode = SyncMode.initial ∨ mode = SyncMode.incremental then
                [.setState (c.name ++ ".last_sync_at".data) now] else []))) ∧
      ∀ (c : Connector) (db : Db) (opts : SyncOptions) (stdin : Str)
        (r : AuditReport) (db' : Db) (ops : List StorageOp),
        opts.dry_run = true →
        runAudit c db opts stdin = .ok (r, db', ops) →
        (∀ i, StorageOp.upsert i ∉ ops) ∧ (∀ i, StorageOp.delete i ∉ ops) ∧
          (¬(r.missing_locally = [] ∧ r.orphaned_locally = []) → ops = []) ∧
          (r.missing_locally = [] ∧ r.orphaned_locally = [] →
            ops = [.startRun c.name "audit".data,
                   .completeRun r.remote_total 0 r.local_total 0 "completed".data]) := by
  constructor
  · intro c db mode opts stdin now r db' ops hdry h
    simp only [runSync] at h
    split at h
    · exact absurd h (by simp)
    · split at h
      · -- empty to-fetch: the run is recorded and the cursor advanced
        simp only [Except.ok.injEq, Prod.mk.injEq] at h
        obtain ⟨hr, hdb, hops⟩ := h
        subst hr hops
        refine ⟨?_, ?_, fun hskip => absurd rfl hskip, fun _ => rfl⟩
        · intro i
          by_cases hadv : mode = SyncMode.initial ∨ mode = SyncMode.incremental
          · simp [hadv]
          · simp [hadv]
        · intro i
          by_cases hadv : mode = SyncMode.initial ∨ mode = SyncMode.incremental
          · simp [hadv]
          · simp [hadv]
      · -- with the dry-run flag set, the only other reachable branch is
        -- the dry-run report, which makes no storage call at all
        simp only [Except.ok.injEq, Prod.mk.injEq] at h
        obtain ⟨hr, hdb, hops⟩ := h
        subst hr hops
        exact ⟨by simp, by simp, fun _ => rfl,
          fun hskip => absurd hskip (by assumption)⟩
  · intro c db opts stdin r db' ops hdry h
    simp only [runAudit] at h
    split at h
    · exact absurd h (by simp)
    · split at h
      next hclean =>
        simp only [Except.ok.injEq, Prod.mk.injEq] at h
        obtain ⟨hr, hdb, hops⟩ := h
        subst hr hops
        exact ⟨by simp, by simp, fun hcon => absurd hclean hcon, fun _ => rfl⟩
      · -- with the dry-run flag set, the only other reachable branch is
        -- the dry-run report
        simp only [Except.ok.injEq, Prod.mk.injEq] at h
        obtain ⟨hr, hdb, hops⟩ := h
        subst hr hops
        exact ⟨by simp, by simp, fun _ => rfl,
          fun hcl => absurd hcl (by assumption)⟩

/-- C1 counterexample: a dry-run incremental sync whose remote listing is
empty still calls start_run, complete_run and set_state — it records a
SyncRun and advances the cursor despite the dry-run flag. -/
theorem c1_counterexample :
    optsDry.dry_run = true ∧
      runSync connEmpty emptyDb .incremental optsDry [] now0 =
        .ok (c1ceReport, c1ceDb, c1ceOps) ∧
      c1ceOps ≠ [] ∧ c1ceDb.runs ≠ [] ∧
      getSyncState c1ceDb.syncState ("pocket.last_sync_at".data) = some now0 :=
  ⟨rfl, by decide, by decide, by decide, by decide⟩

/-- C1 witness: the empty dry run instantiates the purity conclusion at a
concrete probe id. -/
theorem c1_witness :
    optsDry.dry_run = true ∧ StorageOp.upsert "X".data ∉ c1ceOps :=
  ⟨rfl,
    (c1_dry_run_purity.1 connEmpty emptyDb .incremental optsDry [] now0 c1ceReport
      c1ceDb c1ceOps rfl (by decide)).1 "X".data⟩

/-! ### C3: run status accounting -/

theorem foldl_fetchStep_ops (c : Connector) (items : List RemoteTranscript) :
    ∀ st : FetchLoopState, ∀ op ∈ (items.foldl (fetchStoreStep c) st).ops,
      op ∈ st.ops ∨ ∃ i, op = StorageOp.upsert i := by
  induction items with
  | nil => intro st op hop; exact Or.inl hop
  | cons rt rest ih =>
    intro st op hop
    simp only [List.foldl_cons] at hop
    rcases ih (fetchStoreStep c st rt) op hop with hmem | hup
    · simp only [fetchStoreStep] at hmem
      cases hfo : c.fetchOne rt.id with
      | ok t =>
        rw [hfo] at hmem
        simp only [List.mem_append] at hmem
        rcases hmem with hm | hm
        · exact Or.inl hm
        · exact Or.inr ⟨t.id, by simpa using hm⟩
      | error e =>
        rw [hfo] at hmem
        exact Or.inl hmem
    · exact Or.inr hup

theorem fetchStoreLoop_ops_upsert (c : Connector) (items : List RemoteTranscript)
    (db : Db) :
    ∀ op ∈ (fetchStoreLoop c items db).ops, ∃ i, op = StorageOp.upsert i := by
  intro op hop
  rcases foldl_fetchStep_ops c items _ op hop with h0 | hi
  · simp at h0
  · exact hi

theorem foldl_delete_ops (ids : List Str) :
    ∀ acc : Db × List StorageOp,
      ∀ op ∈ (ids.foldl
          (fun acc i =>
            let r := deleteTranscript acc.1.store i
            (({ acc.1 with store := r.2 } : Db), acc.2 ++ [StorageOp.delete i]))
          acc).2,
        op ∈ acc.2 ∨ ∃ i, op = StorageOp.delete i := by
  induction ids with
  | nil => intro acc op hop; exact Or.inl hop
  | cons j rest ih =>
    intro acc op hop
    simp only [List.foldl_cons] at hop
    rcases ih _ op hop with hmem | hdel
    · simp only [List.mem_append] at hmem
      rcases hmem with hm | hm
      · exact Or.inl hm
      · exact Or.inr ⟨j, by simpa using hm⟩
    · exact Or.inr hdel

/-- C3 (amended): run_sync closes its SyncRun with status failed exactly
when it synced nothing and saw at least one error (both in the empty-diff
branch and in the finalize branch); but every SyncRun closed by run_audit,
including the sync-missing disposition, is closed with status completed
regardless of its counts. -/
theorem c3_run_status :
    (∀ (c : Connector) (db : Db) (mode : SyncMode) (opts : SyncOptions)
        (stdin now : Str) (r : SyncReport) (db' : Db) (ops : List StorageOp),
        runSync c db mode opts stdin now = .ok (r, db', ops) →
        ∀ f s k e st, StorageOp.completeRun f s k e st ∈ ops →
          (st = "failed".data ↔ s = 0 ∧ 0 < e)) ∧
      ∀ (c : Connector) (db : Db) (opts : SyncOptions) (stdin : Str)
        (r : AuditReport) (db' : Db) (ops : List StorageOp),
        runAudit c db opts stdin = .ok (r, db', ops) →
        ∀ f s k e st, StorageOp.completeRun f s k e st ∈ ops →
          st = "completed".data := by
  constructor
  · intro c db mode opts stdin now r db' ops h f s k e st hmem
    simp only [runSync] at h
    split at h
    · exact absurd h (by simp)
    split at h
    · -- empty-diff branch: the run closes completed with zero errors
      simp only [Except.ok.injEq, Prod.mk.injEq] at h
      obtain ⟨hr, hdb, hops⟩ := h
      subst hops
      by_cases hadv : mode = SyncMode.initial ∨ mode = SyncMode.incremental
      · rw [if_pos hadv] at hmem
        simp at hmem
        obtain ⟨_, hs, _, he, hst⟩ := hmem
        subst hs he hst
        decide
      · rw [if_neg hadv] at hmem
        simp at hmem
        obtain ⟨_, hs, _, he, hst⟩ := hmem
        subst hs he hst
        decide
    split at h
    · -- dry-run branch: no ops
      simp only [Except.ok.injEq, Prod.mk.injEq] at h
      obtain ⟨hr, hdb, hops⟩ := h
      subst hops
      simp at hmem
    split at h
    · -- declined confirmation: no ops
      simp only [Except.ok.injEq, Prod.mk.injEq] at h
      obtain ⟨hr, hdb, hops⟩ := h
      subst hops
      simp at hmem
    · -- fetch-and-store branch: the closing status is the failed-iff test
      simp only [Except.ok.injEq, Prod.mk.injEq] at h
      obtain ⟨hr, hdb, hops⟩ := h
      subst hops
      rcases List.mem_append.mp hmem with hm | hm
      · rcases List.mem_append.mp hm with hm2 | hm2
        · simp at hm2
        · rcases fetchStoreLoop_ops_upsert c _ _ _ hm2 with ⟨i, hi⟩
          exact absurd hi (by simp)
      · simp at hm
        obtain ⟨_, hs, _, he, hst⟩ := hm
        subst hs he hst
        split
        next hc => exact iff_of_true rfl ⟨hc.2, hc.1⟩
        next hc => exact iff_of_false (by decide) fun hcon => hc ⟨hcon.2, hcon.1⟩
  · intro c db opts stdin r db' ops h f s k e st hmem
    simp only [runAudit] at h
    split at h
    · exact absurd h (by simp)
    split at h
    · -- clean audit
      simp only [Except.ok.injEq, Prod.mk.injEq] at h
      obtain ⟨hr, hdb, hops⟩ := h
      subst hops
      simp at hmem
      obtain ⟨_, _, _, _, hst⟩ := hmem
      exact hst
    split at h
    · -- dry run: no ops
      simp only [Except.ok.injEq, Prod.mk.injEq] at h
      obtain ⟨hr, hdb, hops⟩ := h
      subst hops
      simp at hmem
    split at h
    · -- sync-missing disposition: closed completed whatever the counts
      simp only [Except.ok.injEq, Prod.mk.injEq] at h
      obtain ⟨hr, hdb, hops⟩ := h
      subst hops
      rcases List.mem_append.mp hmem with hm | hm
      · rcases List.mem_append.mp hm with hm2 | hm2
        · simp at hm2
        · rcases fetchStoreLoop_ops_upsert c _ _ _ hm2 with ⟨i, hi⟩
          exact absurd hi (by simp)
      · simp at hm
        exact hm.2.2.2.2
    split at h
    · -- delete-orphans disposition
      simp only [Except.ok.injEq, Prod.mk.injEq] at h
      obtain ⟨hr, hdb, hops⟩ := h
      subst hops
      rcases List.mem_append.mp hmem with hm | hm
      · rcases List.mem_append.mp hm with hm2 | hm2
        · simp at hm2
        · rcases foldl_delete_ops _ _ _ hm2 with h0 | ⟨i, hi⟩
          · simp at h0
          · exact absurd hi (by simp)
      · simp at hm
        exact hm.2.2.2.2
    · -- export and no-op dispositions
      simp only [Except.ok.injEq, Prod.mk.injEq] at h
      obtain ⟨hr, hdb, hops⟩ := h
      subst hops
      simp at hmem
      obtain ⟨_, _, _, _, hst⟩ := hmem
      exact hst

/-- C3 counterexample: a sync-missing audit whose only fetch fails closes
its SyncRun with synced 0, errors 1 and status completed — not failed as
the claim requires for a zero-success erroring run. -/
theorem c3_counterexample :
    runAudit connXFail emptyDb optsWet "s".data = .ok (c3ceReport, c3ceDb, c3ceOps) ∧
      StorageOp.completeRun 1 0 0 1 "completed".data ∈ c3ceOps ∧
      "completed".data ≠ "failed".data :=
  ⟨by decide, by decide, by decide⟩

/-- C3 witness: the empty dry-run sync closes its run completed with zero
errors, and the failed-iff test holds there. -/
theorem c3_witness :
    StorageOp.completeRun 0 0 0 0 "completed".data ∈ c1ceOps ∧
      ("completed".data = "failed".data ↔ (0 = 0 ∧ 0 < 0)) :=
  ⟨by decide,
    c3_run_status.1 connEmpty emptyDb .incremental optsDry [] now0 c1ceReport c1ceDb
      c1ceOps (by decide) 0 0 0 0 "completed".data (by decide)⟩

end Tss
